import Mathlib

/-
Verification of the spectrokit batch audio-analysis pipeline.

The repository has two CLI entry points with the same overall shape:
analyzer.py and spectrokit.py.  Both discover audio files, optionally sample
them, validate the requested feature names against features.all
(the list features.__all__ in features.py), fan per-file processing out over a
process pool, collect results at the orchestrator boundary, write a JSON
report, and (spectrokit.py only) print summary statistics.

External collaborators (librosa decoding, the feature math itself, matplotlib
rendering, the process pool, the Mersenne Twister RNG) are modeled as
abstract outcomes: a per-file environment records whether decoding succeeds,
what value or exception each feature function produces on that file's
waveform, and whether spectrogram rendering succeeds.  Feature values are
modeled as rationals (exact arithmetic in place of IEEE floats).
-/

/-- One per-file result record, as built by process_file in both
analyzer.py and spectrokit.py: the file path, the labels, and the analysis
dict mapping each requested feature name to a value (some v) or to the
Python None failure marker (none).  The dict is modeled as an
insertion-ordered association list, matching Python dict semantics. -/
structure AnalysisResult where
  file : String
  labels : Option (List String)
  analysis : List (String × Option ℚ)
deriving DecidableEq, Repr

/-- Python dict assignment d[k] = v on an insertion-ordered association
list: overwrite in place when the key is present, append otherwise. -/
def dictInsert (d : List (String × Option ℚ)) (k : String) (v : Option ℚ) :
    List (String × Option ℚ) :=
  if d.any (fun p => p.1 == k) then
    d.map (fun p => if p.1 == k then (k, v) else p)
  else d ++ [(k, v)]

/-- The external outcomes that determine one file's processing: whether
librosa.load succeeds, what each feature function returns or raises on the
decoded waveform, and whether visualize.save_spectrogram succeeds. -/
structure FileEnv where
  decode : Except String Unit
  featEval : String → Except String ℚ
  render : Except String Unit

/-- The per-feature loop of analyzer.py process_file (lines 41-48), lenient
policy: each feature is run inside try/except; an exception stores None for
that feature and the loop continues with the remaining features. -/
def lenientLoop (fe : String → Except String ℚ) (functions : List String) :
    List (String × Option ℚ) :=
  functions.foldl (fun acc f => dictInsert acc f (fe f).toOption) []

/-- The per-feature loop of spectrokit.py process_file (lines 46-52), strict
policy: each feature is run inside try/except, but the handler re-raises a
RuntimeError naming the function and the file, aborting the whole file. -/
def strictLoop (fe : String → Except String ℚ) (file : String) :
    List String → List (String × Option ℚ) →
    Except String (List (String × Option ℚ))
  | [], acc => Except.ok acc
  | f :: fs, acc =>
    match fe f with
    | Except.ok v => strictLoop fe file fs (dictInsert acc f (some v))
    | Except.error e =>
        Except.error
          ("Error running function " ++ f ++ " on file " ++ file ++ ": " ++ e)

namespace analyzer

/-- analyzer.py process_file (lines 33-63): decode the waveform, run every
requested feature under the lenient policy (exceptions record None and the
loop continues), then, when an image output directory was given, render the
spectrogram.  The rendering call is not guarded by any try/except, so a
rendering exception propagates out of process_file.  On success the
AnalysisResult record is returned. -/
def process_file (env : FileEnv) (file : String) (functions : List String)
    (labels : Option (List String)) (image_output : Option String) :
    Except String AnalysisResult :=
  match env.decode with
  | Except.error e => Except.error e
  | Except.ok _ =>
    let analysis := lenientLoop env.featEval functions
    match image_output with
    | some _ =>
      match env.render with
      | Except.error e => Except.error e
      | Except.ok _ => Except.ok ⟨file, labels, analysis⟩
    | none => Except.ok ⟨file, labels, analysis⟩

end analyzer

namespace spectrokit

/-- spectrokit.py process_file (lines 39-67): decode the waveform, run every
requested feature under the strict policy (any feature exception is
re-raised as a RuntimeError, aborting the file), then, when an image output
directory was given, render the spectrogram (unguarded, as in analyzer.py).
On success the AnalysisResult record is returned; under the strict policy
every value in its analysis dict is a float, never None. -/
def process_file (env : FileEnv) (file : String) (functions : List String)
    (labels : Option (List String)) (image_output : Option String) :
    Except String AnalysisResult :=
  match env.decode with
  | Except.error e => Except.error e
  | Except.ok _ =>
    match strictLoop env.featEval file functions [] with
    | Except.error e => Except.error e
    | Except.ok analysis =>
      match image_output with
      | some _ =>
        match env.render with
        | Except.error e => Except.error e
        | Except.ok _ => Except.ok ⟨file, labels, analysis⟩
      | none => Except.ok ⟨file, labels, analysis⟩

end spectrokit

/-- State accumulated by the result-collection loop of both analyze
commands: the results gathered so far, the error lines written for failed
files, and the progress-bar counter. -/
structure BatchState where
  results : List AnalysisResult
  logged : List String
  progress : Nat
deriving DecidableEq, Repr

/-- One iteration of the as_completed loop (spectrokit.py lines 126-133,
analyzer.py lines 110-116): a successful future appends its result; a future
that raised is caught, and the line Error processing file: followed by the
exception text is written; the progress bar advances either way. -/
def batchStep (st : BatchState) (o : Except String AnalysisResult) :
    BatchState :=
  match o with
  | Except.ok r =>
      { st with results := st.results ++ [r], progress := st.progress + 1 }
  | Except.error e =>
      { st with logged := st.logged ++ ["Error processing file: " ++ e],
                progress := st.progress + 1 }

/-- The whole collection loop of both analyze commands, folded over the
per-file outcomes in completion order. -/
def orchestrate (outcomes : List (Except String AnalysisResult)) :
    BatchState :=
  outcomes.foldl batchStep ⟨[], [], 0⟩

/-- The result kept (if any) from one per-file outcome. -/
def exceptOk : Except String AnalysisResult → Option AnalysisResult
  | Except.ok r => some r
  | Except.error _ => none

/-- The log line produced (if any) by one per-file outcome. -/
def exceptLog : Except String AnalysisResult → Option String
  | Except.ok _ => none
  | Except.error e => some ("Error processing file: " ++ e)

namespace features

/-- features.py __all__ (lines 4-10): the registry enumeration.  Note the
listed name bndwidth_mean. -/
def all : List String :=
  ["centroid_variance", "bndwidth_mean", "zcr_mean", "rms_variance",
   "rolloff_median"]

/-- The function names actually defined in features.py.  The defined
function is bandwidth_mean (features.py line 18), not the bndwidth_mean that
__all__ advertises. -/
def moduleCallables : List String :=
  ["centroid_variance", "bandwidth_mean", "zcr_mean", "rms_variance",
   "rolloff_median"]

end features

/-- discover_analysis_functions (identical in analyzer.py lines 22-31 and
spectrokit.py lines 28-37): the names in features.__all__ that resolve via
getattr to a callable attribute of the features module. -/
def discover_analysis_functions : List String :=
  features.all.filter (fun n => features.moduleCallables.contains n)

/-- The validation loop of both analyze commands (spectrokit.py lines
113-117, analyzer.py lines 97-101): the first requested name missing from
the discovered functions is reported and the command exits with code 1;
otherwise validation passes.  It runs after file discovery and sampling but
before any file is decoded. -/
def validateFunctions (requested : List String) : Except String Unit :=
  match requested.find? (fun f => !(discover_analysis_functions.contains f)) with
  | some f =>
      Except.error ("Function " ++ f ++ " is not listed in features.__all__.")
  | none => Except.ok ()

/-- The process-global random module, modeled as a state machine over an
abstract state type: seedFn is random.seed and sampleFn is random.sample
drawing k elements from a population using (and only using) the current
state. -/
structure RNG (S : Type) where
  seedFn : Nat → S
  sampleFn : S → List String → Nat → List String

namespace spectrokit

/-- spectrokit.py analyze, lines 95-101: when a seed option is given,
random.seed(seed) resets the RNG state; then, when sample_size is truthy
(neither None nor 0), random.sample draws min(sample_size, number of files)
files.  The incoming state st is whatever the process RNG state happens to
be before the command runs. -/
def samplingStep {S : Type} (rng : RNG S) (st : S) (seed : Option Nat)
    (files : List String) (sample_size : Option Nat) : List String :=
  let st1 := match seed with
    | some s => rng.seedFn s
    | none => st
  match sample_size with
  | some n => if n = 0 then files else rng.sampleFn st1 files (min n files.length)
  | none => files

end spectrokit

/-- The front character of a string is a slash, List-level so that it
evaluates inside the kernel: models pathstring.startswith of a slash as done
by os.path.join on POSIX. -/
def startsWithSlash (s : String) : Bool :=
  match s.data with
  | [] => false
  | c :: _ => c == '/'

/-- The last character of a string is a slash. -/
def endsWithSlash (s : String) : Bool :=
  match s.data.getLast? with
  | some c => c == '/'
  | none => false

/-- os.path.join(a, b) for POSIX paths: an absolute b replaces a; otherwise
b is appended to a, inserting a slash unless a is empty or already ends with
one. -/
def osPathJoin (a b : String) : String :=
  if startsWithSlash b then b
  else if a.data = [] then a ++ b
  else if endsWithSlash a then a ++ b
  else a ++ "/" ++ b

/-- Python str.split with no arguments: split on whitespace runs, dropping
empty pieces. -/
def pySplit (s : String) : List String :=
  (s.split Char.isWhitespace).filter (fun t => !(t.isEmpty))

namespace analyzer

/-- analyzer.py line 120: the path the analyze command writes the report to.
The output option (default the string results.json, line 73) is always
passed to os.path.join as the directory part, with the fixed file name
results.json joined under it. -/
def reportPath (output : String) : String := osPathJoin output "results.json"

end analyzer

namespace spectrokit

/-- spectrokit.py lines 137-138: the report write of the analyze command.
The file name is built by joining the labels value with underscores before
the file is opened.  When the labels option was never given the variable is
still None and the join raises TypeError, so no file is created at all.  A
given labels string was split into words earlier (line 107); an empty labels
string is falsy and stays unsplit, but joining over it also yields the empty
string, which the word-list model reproduces since pySplit of it is [].
On success, the path written and the serialized results are returned. -/
def reportWrite (results : List AnalysisResult) (labels : Option String)
    (output : String) : Except String (String × List AnalysisResult) :=
  match labels with
  | none => Except.error "TypeError: can only join an iterable"
  | some s =>
      Except.ok
        (osPathJoin output (String.intercalate "_" (pySplit s) ++ "-results.json"),
         results)

/-- The arithmetic mean computed at spectrokit.py line 152:
sum(values) / len(values). -/
def mean (values : List ℚ) : ℚ := values.sum / values.length

/-- The sample variance underlying statistics.stdev at spectrokit.py line
153: sum of squared deviations from the mean over (n - 1). -/
def sampleVariance (values : List ℚ) : ℚ :=
  (values.map (fun v => (v - mean values) ^ 2)).sum / ((values.length : ℚ) - 1)

/-- s is the number statistics.stdev prints for values: the nonnegative
square root of the sample variance. -/
def isSampleStdev (s : ℚ) (values : List ℚ) : Prop :=
  0 ≤ s ∧ s * s = sampleVariance values

/-- One line of the summary printed per feature. -/
inductive SummaryOutput where
  | stats (mean svar : ℚ) (count : Nat)
  | noData
deriving DecidableEq, Repr

/-- The per-feature summary of spectrokit.py lines 150-155: an empty value
list prints No data available; otherwise the line interpolates the mean,
statistics.stdev(values) and the count.  statistics.stdev raises
StatisticsError when it is given fewer than two data points, so a
single-value list raises before the line is printed.  The stdev itself is
reported through its square, the sample variance (see isSampleStdev). -/
def summaryLine (values : List ℚ) : Except String SummaryOutput :=
  if values.isEmpty then Except.ok SummaryOutput.noData
  else if values.length < 2 then
    Except.error "StatisticsError: stdev requires at least two data points"
  else
    Except.ok (SummaryOutput.stats (mean values) (sampleVariance values)
      values.length)

/-- The value-collection pass of spectrokit.py lines 144-147: for each
result, every (feature, value) item of its analysis dict is appended to that
feature's list.  The strict policy of this entry point means no stored value
is ever None; the none filter below is therefore never exercised on
reachable reports. -/
def collectValues (results : List AnalysisResult) (x : String) : List ℚ :=
  results.foldl
    (fun acc r =>
      acc ++ r.analysis.filterMap (fun p => if p.1 == x then p.2 else none))
    []

end spectrokit

/-- A per-file environment where decoding, every feature, and rendering all
succeed; every feature evaluates to 1. -/
def envAllOk : FileEnv :=
  ⟨Except.ok (), fun _ => Except.ok 1, Except.ok ()⟩

/-- A per-file environment where decoding and every feature succeed but
spectrogram rendering raises. -/
def envRenderFails : FileEnv :=
  ⟨Except.ok (), fun _ => Except.ok 1, Except.error "render failed"⟩

/-- A per-file environment where the feature zcr_mean raises and every other
feature evaluates to 1. -/
def envZcrRaises : FileEnv :=
  ⟨Except.ok (),
   fun f => if f == "zcr_mean" then Except.error "boom" else Except.ok 1,
   Except.ok ()⟩

/-- What actually happens when an image-output directory is supplied and
spectrogram rendering raises, while decoding and every feature succeed: both
process_file variants re-raise the rendering exception instead of returning
the computed AnalysisResult, and the orchestrator then logs the failure and
leaves the file out of the collected results, while the rest of the batch is
unaffected. -/
def RenderFailureDropsFile (env : FileEnv) (file : String)
    (functions : List String) (labels : Option (List String)) (img e : String) :
    Prop :=
  spectrokit.process_file env file functions labels (some img) = Except.error e
  ∧ analyzer.process_file env file functions labels (some img) = Except.error e
  ∧ ∀ os : List (Except String AnalysisResult),
      (orchestrate (os ++ [Except.error e])).results = (orchestrate os).results
      ∧ ("Error processing file: " ++ e)
          ∈ (orchestrate (os ++ [Except.error e])).logged

/-- The lenient policy of analyzer.py on a file where feature bad raises:
the file still yields a result, the failing feature is recorded with the
None marker, and every feature that evaluates records its value. -/
def LenientIsolation (env : FileEnv) (file : String) (functions : List String)
    (labels : Option (List String)) (bad : String) : Prop :=
  ∃ r, analyzer.process_file env file functions labels none = Except.ok r
    ∧ r.analysis = functions.map (fun f => (f, (env.featEval f).toOption))
    ∧ (bad, none) ∈ r.analysis
    ∧ ∀ g v, g ∈ functions → env.featEval g = Except.ok v →
        (g, some v) ∈ r.analysis

/-- The strict policy of spectrokit.py on a file where some feature raises:
process_file raises, and at the orchestrator boundary the file is excluded
from the collected results and its error line is logged, whatever the other
outcomes of the batch are. -/
def StrictExclusion (env : FileEnv) (file : String) (functions : List String)
    (labels : Option (List String)) : Prop :=
  ∃ msg, spectrokit.process_file env file functions labels none
      = Except.error msg
    ∧ ∀ os : List (Except String AnalysisResult),
        (orchestrate
            (os ++ [spectrokit.process_file env file functions labels none])).results
          = (orchestrate os).results
        ∧ ("Error processing file: " ++ msg)
            ∈ (orchestrate
                (os ++ [spectrokit.process_file env file functions labels none])).logged

/-- The AnalysisResult invariant: whenever either process_file variant
completes, the analysis dict has exactly the requested keys, in request
order; under the lenient command each key holds the feature value or the
None marker, and under the strict command every key holds a value. -/
def ResultKeysExact (env : FileEnv) (file : String) (functions : List String)
    (labels : Option (List String)) (image_output : Option String) : Prop :=
  (∀ r, analyzer.process_file env file functions labels image_output
      = Except.ok r →
      r.analysis.map Prod.fst = functions
      ∧ r.analysis = functions.map (fun f => (f, (env.featEval f).toOption)))
  ∧ (∀ r, spectrokit.process_file env file functions labels image_output
      = Except.ok r →
      r.analysis.map Prod.fst = functions
      ∧ ∀ p ∈ r.analysis, ∃ v : ℚ, p.2 = some v)

theorem dictInsert_fresh (d : List (String × Option ℚ)) (k : String)
    (v : Option ℚ) (h : k ∉ d.map Prod.fst) :
    dictInsert d k v = d ++ [(k, v)] := by
  have hany : d.any (fun p => p.1 == k) = false := by
    rw [List.any_eq_false]
    intro p hp
    simp only [beq_iff_eq]
    intro hk
    exact h (hk ▸ List.mem_map_of_mem Prod.fst hp)
  simp [dictInsert, hany]

theorem foldl_dictInsert_eq (fe : String → Except String ℚ)
    (functions : List String) :
    ∀ d : List (String × Option ℚ), functions.Nodup →
      (∀ f ∈ functions, f ∉ d.map Prod.fst) →
      functions.foldl (fun acc f => dictInsert acc f (fe f).toOption) d
        = d ++ functions.map (fun f => (f, (fe f).toOption)) := by
  induction functions with
  | nil => intro d _ _; simp
  | cons f fs ih =>
    intro d hnd hfresh
    have hf : f ∉ d.map Prod.fst := hfresh f (List.mem_cons_self f fs)
    rw [List.foldl_cons, dictInsert_fresh d f _ hf,
      ih (d ++ [(f, (fe f).toOption)]) (List.nodup_cons.mp hnd).2 ?_]
    · simp
    · intro g hg
      simp only [List.map_append, List.mem_append, List.map_cons,
        List.map_nil, List.mem_singleton]
      push_neg
      refine ⟨hfresh g (List.mem_cons_of_mem f hg), ?_⟩
      intro hgf
      exact (List.nodup_cons.mp hnd).1 (hgf ▸ hg)

theorem lenientLoop_eq (fe : String → Except String ℚ)
    (functions : List String) (hnd : functions.Nodup) :
    lenientLoop fe functions
      = functions.map (fun f => (f, (fe f).toOption)) := by
  have := foldl_dictInsert_eq fe functions [] hnd (by simp)
  simpa [lenientLoop] using this

theorem strictLoop_ok_feats (fe : String → Except String ℚ) (file : String) :
    ∀ (functions : List String) (acc d : List (String × Option ℚ)),
      strictLoop fe file functions acc = Except.ok d →
      ∀ f ∈ functions, ∃ v, fe f = Except.ok v := by
  intro functions
  induction functions with
  | nil => intro acc d _ f hf; cases hf
  | cons g gs ih =>
    intro acc d h f hf
    cases hg : fe g with
    | error e => simp [strictLoop, hg] at h
    | ok v =>
      simp only [strictLoop, hg] at h
      rcases List.mem_cons.mp hf with rfl | hf2
      · exact ⟨v, hg⟩
      · exact ih _ d h f hf2

theorem strictLoop_ok_eq (fe : String → Except String ℚ) (file : String) :
    ∀ (functions : List String) (acc d : List (String × Option ℚ)),
      functions.Nodup → (∀ f ∈ functions, f ∉ acc.map Prod.fst) →
      strictLoop fe file functions acc = Except.ok d →
      d = acc ++ functions.map (fun f => (f, (fe f).toOption)) := by
  intro functions
  induction functions with
  | nil =>
    intro acc d _ _ h
    simp only [strictLoop, Except.ok.injEq] at h
    simp [h]
  | cons g gs ih =>
    intro acc d hnd hfresh h
    cases hg : fe g with
    | error e => simp [strictLoop, hg] at h
    | ok v =>
      simp only [strictLoop, hg] at h
      have hfg : g ∉ acc.map Prod.fst := hfresh g (List.mem_cons_self g gs)
      rw [dictInsert_fresh acc g (some v) hfg] at h
      have hrec := ih (acc ++ [(g, some v)]) d (List.nodup_cons.mp hnd).2 ?_ h
      · rw [hrec]; simp [hg, Except.toOption]
      · intro f hf
        simp only [List.map_append, List.mem_append, List.map_cons,
          List.map_nil, List.mem_singleton]
        push_neg
        refine ⟨hfresh f (List.mem_cons_of_mem g hf), ?_⟩
        intro hgf
        exact (List.nodup_cons.mp hnd).1 (hgf ▸ hf)

theorem strictLoop_ok_of_feats (fe : String → Except String ℚ)
    (file : String) :
    ∀ (functions : List String) (acc : List (String × Option ℚ)),
      (∀ f ∈ functions, ∃ v, fe f = Except.ok v) →
      ∃ d, strictLoop fe file functions acc = Except.ok d := by
  intro functions
  induction functions with
  | nil => intro acc _; exact ⟨acc, rfl⟩
  | cons g gs ih =>
    intro acc hfe
    obtain ⟨v, hv⟩ := hfe g (List.mem_cons_self g gs)
    obtain ⟨d, hd⟩ := ih (dictInsert acc g (some v))
      (fun f hf => hfe f (List.mem_cons_of_mem g hf))
    exact ⟨d, by simp [strictLoop, hv, hd]⟩

theorem strictLoop_err (fe : String → Except String ℚ) (file : String) :
    ∀ (functions : List String) (acc : List (String × Option ℚ))
      (bad e : String), bad ∈ functions → fe bad = Except.error e →
      ∃ msg, strictLoop fe file functions acc = Except.error msg := by
  intro functions
  induction functions with
  | nil => intro acc bad e hbad _; cases hbad
  | cons g gs ih =>
    intro acc bad e hbad hbe
    cases hg : fe g with
    | error e2 =>
      exact ⟨"Error running function " ++ g ++ " on file " ++ file ++ ": " ++ e2,
        by simp [strictLoop, hg]⟩
    | ok v =>
      rcases List.mem_cons.mp hbad with rfl | hbad2
      · rw [hg] at hbe; cases hbe
      · obtain ⟨msg, hmsg⟩ := ih (dictInsert acc g (some v)) bad e hbad2 hbe
        exact ⟨msg, by simp [strictLoop, hg, hmsg]⟩

theorem batch_foldl (outcomes : List (Except String AnalysisResult)) :
    ∀ st : BatchState,
      outcomes.foldl batchStep st
        = ⟨st.results ++ outcomes.filterMap exceptOk,
           st.logged ++ outcomes.filterMap exceptLog,
           st.progress + outcomes.length⟩ := by
  induction outcomes with
  | nil => intro st; simp
  | cons o os ih =>
    intro st
    cases o with
    | ok r =>
      rw [List.foldl_cons, ih]
      simp [batchStep, exceptOk, exceptLog, Nat.add_comm, Nat.add_assoc,
        Nat.add_left_comm]
    | error e =>
      rw [List.foldl_cons, ih]
      simp [batchStep, exceptOk, exceptLog, Nat.add_comm, Nat.add_assoc,
        Nat.add_left_comm]

theorem orchestrate_spec (outcomes : List (Except String AnalysisResult)) :
    orchestrate outcomes
      = ⟨outcomes.filterMap exceptOk, outcomes.filterMap exceptLog,
         outcomes.length⟩ := by
  have := batch_foldl outcomes ⟨[], [], 0⟩
  simpa [orchestrate] using this

theorem analyzer_ok_analysis (env : FileEnv) (file : String)
    (functions : List String) (labels : Option (List String))
    (image_output : Option String) (r : AnalysisResult)
    (hr : analyzer.process_file env file functions labels image_output
        = Except.ok r) :
    r.analysis = lenientLoop env.featEval functions := by
  cases hdec : env.decode with
  | error e => simp [analyzer.process_file, hdec] at hr
  | ok u =>
    cases image_output with
    | none =>
      simp only [analyzer.process_file, hdec, Except.ok.injEq] at hr
      rw [← hr]
    | some img =>
      cases hrend : env.render with
      | error e => simp [analyzer.process_file, hdec, hrend] at hr
      | ok u2 =>
        simp only [analyzer.process_file, hdec, hrend, Except.ok.injEq] at hr
        rw [← hr]

theorem spectrokit_ok_analysis (env : FileEnv) (file : String)
    (functions : List String) (labels : Option (List String))
    (image_output : Option String) (r : AnalysisResult)
    (hr : spectrokit.process_file env file functions labels image_output
        = Except.ok r) :
    strictLoop env.featEval file functions [] = Except.ok r.analysis := by
  cases hdec : env.decode with
  | error e => simp [spectrokit.process_file, hdec] at hr
  | ok u =>
    cases hsl : strictLoop env.featEval file functions [] with
    | error e => simp [spectrokit.process_file, hdec, hsl] at hr
    | ok analysis =>
      cases image_output with
      | none =>
        simp only [spectrokit.process_file, hdec, hsl, Except.ok.injEq] at hr
        rw [← hr]
      | some img =>
        cases hrend : env.render with
        | error e => simp [spectrokit.process_file, hdec, hsl, hrend] at hr
        | ok u2 =>
          simp only [spectrokit.process_file, hdec, hsl, hrend,
            Except.ok.injEq] at hr
          rw [← hr]

theorem map_fst_pairs (fe : String → Except String ℚ)
    (functions : List String) :
    (functions.map (fun f => (f, (fe f).toOption))).map Prod.fst
      = functions := by
  induction functions with
  | nil => rfl
  | cons f fs ih => simp only [List.map_cons, ih]

/-- C1, counterexample: a file whose features all succeed but whose
spectrogram rendering raises.  Against the claim, the AnalysisResult with
the computed values is not produced: both process_file variants re-raise the
rendering exception, and the Report collected by the orchestrator is empty
instead of containing the result. -/
theorem c1_counterexample :
    spectrokit.process_file envRenderFails "a.wav" ["zcr_mean"] none
        (some "imgs") = Except.error "render failed"
    ∧ analyzer.process_file envRenderFails "a.wav" ["zcr_mean"] none
        (some "imgs") = Except.error "render failed"
    ∧ (orchestrate
        [spectrokit.process_file envRenderFails "a.wav" ["zcr_mean"] none
          (some "imgs")]).results = [] :=
  ⟨rfl, rfl, rfl⟩

/-- C1, as amended: when an image-output directory is supplied and
spectrogram rendering fails on a file whose decoding and features all
succeed, the rendering exception propagates out of process_file, so the
numeric AnalysisResult is lost for that file; the orchestrator reports the
failure and excludes the file from the Report, and the rest of the batch is
unaffected. -/
theorem c1_render_failure_drops_file (env : FileEnv) (file : String)
    (functions : List String) (labels : Option (List String)) (img e : String)
    (hdec : env.decode = Except.ok ()) (hrend : env.render = Except.error e)
    (hfe : ∀ f ∈ functions, ∃ v, env.featEval f = Except.ok v) :
    RenderFailureDropsFile env file functions labels img e := by
  obtain ⟨d, hd⟩ := strictLoop_ok_of_feats env.featEval file functions [] hfe
  refine ⟨?_, ?_, ?_⟩
  · simp [spectrokit.process_file, hdec, hd, hrend]
  · simp [analyzer.process_file, hdec, hrend]
  · intro os
    constructor
    · rw [orchestrate_spec, orchestrate_spec]
      simp [exceptOk]
    · rw [orchestrate_spec]
      simp [exceptLog]

/-- C1, witness: the amended statement at a concrete file whose single
feature succeeds and whose rendering raises. -/
theorem c1_witness :
    RenderFailureDropsFile envRenderFails "a.wav" ["zcr_mean"] none "imgs"
      "render failed" :=
  c1_render_failure_drops_file envRenderFails "a.wav" ["zcr_mean"] none "imgs"
    "render failed" rfl rfl (by intro f hf; exact ⟨1, rfl⟩)

/-- C2: the summary aggregator of spectrokit.py flags only an empty value
list as No data available; a feature with exactly one value reaches
statistics.stdev, which raises StatisticsError instead of reporting
insufficient data, contradicting the claim. -/
theorem c2_single_value_stdev_raises :
    spectrokit.summaryLine [(1 : ℚ)]
        = Except.error "StatisticsError: stdev requires at least two data points"
    ∧ spectrokit.summaryLine [] = Except.ok spectrokit.SummaryOutput.noData :=
  ⟨rfl, rfl⟩

/-- C3: features.__all__ lists the name bndwidth_mean, but features.py
defines bandwidth_mean, so getattr finds no callable under the listed name
and validation rejects it with exit code 1 (with a message claiming it is
not listed in __all__, although it is), contradicting the claim that exactly
the names of the enumeration are accepted.  The four correctly spelled names
of the enumeration are accepted. -/
theorem c3_bndwidth_mean_rejected :
    "bndwidth_mean" ∈ features.all
    ∧ validateFunctions ["bndwidth_mean"]
        = Except.error "Function bndwidth_mean is not listed in features.__all__."
    ∧ "bandwidth_mean" ∉ features.all
    ∧ validateFunctions
        ["centroid_variance", "zcr_mean", "rms_variance", "rolloff_median"]
        = Except.ok () :=
  ⟨by decide, rfl, by decide, rfl⟩

/-- C4: when a requested feature raises on a file, analyzer.py applies the
lenient policy uniformly (the file still yields a result, every other
feature populates its value, and the failing feature records the None
marker), and spectrokit.py applies the strict policy uniformly (the whole
file aborts, is excluded from the Report at the orchestrator boundary, and
its error is logged); neither entry point mixes the policies. -/
theorem c4_failure_policy (env : FileEnv) (file : String)
    (functions : List String) (labels : Option (List String)) (bad e : String)
    (hnd : functions.Nodup) (hdec : env.decode = Except.ok ())
    (hbad : bad ∈ functions) (hbe : env.featEval bad = Except.error e) :
    LenientIsolation env file functions labels bad
    ∧ StrictExclusion env file functions labels := by
  constructor
  · refine ⟨⟨file, labels, lenientLoop env.featEval functions⟩, ?_, ?_, ?_, ?_⟩
    · simp [analyzer.process_file, hdec]
    · exact lenientLoop_eq env.featEval functions hnd
    · show (bad, none) ∈ lenientLoop env.featEval functions
      rw [lenientLoop_eq env.featEval functions hnd]
      exact List.mem_map.mpr ⟨bad, hbad, by simp [hbe, Except.toOption]⟩
    · intro g v hg hv
      show (g, some v) ∈ lenientLoop env.featEval functions
      rw [lenientLoop_eq env.featEval functions hnd]
      exact List.mem_map.mpr ⟨g, hg, by simp [hv, Except.toOption]⟩
  · obtain ⟨msg, hmsg⟩ :=
      strictLoop_err env.featEval file functions [] bad e hbad hbe
    have hpf : spectrokit.process_file env file functions labels none
        = Except.error msg := by
      simp [spectrokit.process_file, hdec, hmsg]
    refine ⟨msg, hpf, ?_⟩
    intro os
    rw [hpf]
    constructor
    · rw [orchestrate_spec, orchestrate_spec]
      simp [exceptOk]
    · rw [orchestrate_spec]
      simp [exceptLog]

/-- C4, witness: both policies at a concrete file where zcr_mean raises and
rms_variance evaluates to 1. -/
theorem c4_witness :
    LenientIsolation envZcrRaises "a.wav" ["rms_variance", "zcr_mean"] none
      "zcr_mean"
    ∧ StrictExclusion envZcrRaises "a.wav" ["rms_variance", "zcr_mean"] none :=
  c4_failure_policy envZcrRaises "a.wav" ["rms_variance", "zcr_mean"] none
    "zcr_mean" "boom" (by decide) rfl (by decide) rfl

/-- C5: every AnalysisResult either process_file variant completes has an
analysis dict with exactly the requested keys, in request order, each mapped
to a value or to the explicit None marker; no requested key is absent and no
extra key is present, and under the strict entry point every key holds a
value. -/
theorem c5_analysis_keys (env : FileEnv) (file : String)
    (functions : List String) (labels : Option (List String))
    (image_output : Option String) (hnd : functions.Nodup) :
    ResultKeysExact env file functions labels image_output := by
  constructor
  · intro r hr
    have hana :=
      analyzer_ok_analysis env file functions labels image_output r hr
    rw [hana, lenientLoop_eq env.featEval functions hnd]
    constructor
    · exact map_fst_pairs env.featEval functions
    · rfl
  · intro r hr
    have hsl :=
      spectrokit_ok_analysis env file functions labels image_output r hr
    have hfeats :=
      strictLoop_ok_feats env.featEval file functions [] r.analysis hsl
    have heq :=
      strictLoop_ok_eq env.featEval file functions [] r.analysis hnd
        (by simp) hsl
    constructor
    · rw [heq, List.nil_append]
      exact map_fst_pairs env.featEval functions
    · intro p hp
      rw [heq] at hp
      simp only [List.nil_append, List.mem_map] at hp
      obtain ⟨f, hf, rfl⟩ := hp
      obtain ⟨v, hv⟩ := hfeats f hf
      exact ⟨v, by simp [hv, Except.toOption]⟩

/-- C5, witness: the invariant at a concrete request of two features on a
file where everything succeeds. -/
theorem c5_witness :
    ResultKeysExact envAllOk "a.wav" ["zcr_mean", "rms_variance"] none none :=
  c5_analysis_keys envAllOk "a.wav" ["zcr_mean", "rms_variance"] none none
    (by decide)

/-- C6: the orchestrator loop of both analyze commands catches every
whole-file failure at its boundary: the collected results are exactly the
successful outcomes, every failed outcome contributes its log line, the
progress counter advances once per file regardless of outcome (the batch is
never aborted), and a decode failure makes either process_file variant one
of those caught whole-file failures. -/
theorem c6_orchestrator_isolation
    (outcomes : List (Except String AnalysisResult)) :
    (orchestrate outcomes).results = outcomes.filterMap exceptOk
    ∧ (orchestrate outcomes).logged = outcomes.filterMap exceptLog
    ∧ (orchestrate outcomes).progress = outcomes.length
    ∧ ∀ (e : String) (fe : String → Except String ℚ)
        (rend : Except String Unit) (file : String) (functions : List String)
        (labels : Option (List String)) (img : Option String),
        spectrokit.process_file ⟨Except.error e, fe, rend⟩ file functions
            labels img = Except.error e
        ∧ analyzer.process_file ⟨Except.error e, fe, rend⟩ file functions
            labels img = Except.error e := by
  refine ⟨?_, ?_, ?_, ?_⟩
  · rw [orchestrate_spec]
  · rw [orchestrate_spec]
  · rw [orchestrate_spec]
  · intro e fe rend file functions labels img
    exact ⟨rfl, rfl⟩

/-- C7: with the same seed, the same discovered file list and the same
sample size, the sampling step of the spectrokit analyze command selects the
identical subset on any two runs: random.seed resets the RNG state from the
seed, so whatever distinct states the two runs start from, the drawn sample
is the same. -/
theorem c7_seeded_sampling_reproducible {S : Type} (rng : RNG S)
    (st1 st2 : S) (s : Nat) (files : List String) (n : Option Nat) :
    spectrokit.samplingStep rng st1 (some s) files n
      = spectrokit.samplingStep rng st2 (some s) files n := rfl

/-- C8: for a Report whose three results carry the values 1, 2 and 3 for
feature x, the collected value list is [1, 2, 3], and the summary for x
reports mean 2, count 3, and a standard deviation of 1 (the sample standard
deviation: 1 is the nonnegative number whose square is the sample
variance). -/
theorem c8_aggregation_example :
    spectrokit.collectValues
        [⟨"f1.wav", none, [("x", some 1)]⟩, ⟨"f2.wav", none, [("x", some 2)]⟩,
         ⟨"f3.wav", none, [("x", some 3)]⟩] "x" = [1, 2, 3]
    ∧ spectrokit.summaryLine [1, 2, 3]
        = Except.ok (spectrokit.SummaryOutput.stats 2 1 3)
    ∧ spectrokit.isSampleStdev 1 [1, 2, 3] := by
  refine ⟨rfl, ?_, ?_, ?_⟩
  · norm_num [spectrokit.summaryLine, spectrokit.mean,
      spectrokit.sampleVariance]
  · norm_num
  · norm_num [spectrokit.isSampleStdev, spectrokit.sampleVariance,
      spectrokit.mean]

/-- C9: in the spectrokit analyze command, when no labels were provided the
labels variable is still None at the report-writing step, so joining it with
underscores raises TypeError before the output file is opened: no report is
written, whatever results the run produced. -/
theorem c9_unlabeled_run_writes_no_report (results : List AnalysisResult)
    (output : String) :
    spectrokit.reportWrite results none output
      = Except.error "TypeError: can only join an iterable" := rfl

/-- C10: the analyzer analyze command always joins the fixed file name
results.json under the output option, so with the default output value
results.json the report target is results.json/results.json. -/
theorem c10_report_path_always_joined :
    analyzer.reportPath "results.json" = "results.json/results.json"
    ∧ ∀ output : String,
        analyzer.reportPath output = osPathJoin output "results.json" :=
  ⟨by decide, fun _ => rfl⟩
